import Mathlib

/-!
Verification of the desktop-file repair and version-reconciliation engine
of the appimage_fixer repository (src/appimage_fixer/core.py,
src/appimage_fixer/database.py, src/appimage_fixer/config.py).

A desktop-entry file is modelled as the list of its lines exactly as
Python's `readlines` produces them: each line is a list of characters and
keeps its trailing newline character when it has one.  Python strings are
modelled as `List Char`; regular-expression substitutions are modelled by
functions that reproduce the exact matching behaviour of the concrete
patterns used in the source.  File-system and subprocess effects are made
explicit: success flags (`backupOk`, `writeOk`, `binExists`) and probe
outcomes (`toolResults`, `dbVersion`) are parameters, and fallible code
returns `Except`.
-/

namespace AppimageFixer

/-- A Python string (a line of a desktop file, a file name, ...). -/
abbrev Line := List Char

/-- Convenience conversion from a Lean string literal. -/
def ofStr (s : String) : Line := s.toList

/-- Python's `str.isspace` character class as used by `str.strip` and
`str.split()` and by the regex class `\s` (ASCII part). -/
def pyIsSpace (c : Char) : Bool :=
  c = ' ' || c = '\t' || c = '\n' || c = '\r' || c = '\x0b' || c = '\x0c'

/-- Python `str.strip()` on a character list. -/
def pyStripChars (l : Line) : Line :=
  ((l.dropWhile pyIsSpace).reverse.dropWhile pyIsSpace).reverse

/-- Python `str.split()` (split on whitespace runs, dropping empties):
auxiliary accumulator recursion. -/
def wordsAux : Line → Line → List Line
  | [], acc => if acc.isEmpty then [] else [acc.reverse]
  | c :: cs, acc =>
    if pyIsSpace c then
      if acc.isEmpty then wordsAux cs [] else acc.reverse :: wordsAux cs []
    else wordsAux cs (c :: acc)

/-- Python `str.split()`. -/
def pyWords (l : Line) : List Line := wordsAux l []

/-- Python `str.lower()` (ASCII behaviour). -/
def pyLower (l : Line) : Line := l.map Char.toLower

/-- Python's substring test `needle in hay`. -/
def substr (needle hay : Line) : Bool :=
  if needle.isPrefixOf hay then true
  else
    match hay with
    | [] => false
    | _ :: t => substr needle t

/-- `extract_app_name` (core.py:91): value of the first `Name=` line,
stripped; `None` when no such line exists. -/
def extract_app_name (lines : List Line) : Option Line :=
  match lines.find? (fun l => (ofStr "Name=").isPrefixOf l) with
  | some l => some (pyStripChars (l.drop 5))
  | none => none

/-- `get_app_config` (config.py:19), restricted to the `icon` field: the
lowercased first word of the app name, or `unknown` for a blank name.
(`needs_no_sandbox` is unconditionally `true` in the source.) -/
def get_app_config_icon (app_name : Line) : Line :=
  if (pyStripChars app_name).isEmpty then ofStr "unknown"
  else pyLower ((pyWords app_name).headD [])

/-! ### Icon rule (core.py:289-314) -/

/-- Model of `re.sub(r"^Icon=appimagekit_[^\s]*", f"Icon={icon_name}", line)`:
if the line starts with `Icon=appimagekit_`, that prefix together with the
following maximal run of non-whitespace characters is replaced by
`Icon=<icon>`; otherwise the line is unchanged.  The replacement text is
taken literally. -/
def sub_kit (icon line : Line) : Line :=
  if (ofStr "Icon=appimagekit_").isPrefixOf line then
    ofStr "Icon=" ++ icon ++ (line.drop 17).dropWhile (fun c => !pyIsSpace c)
  else line

/-- First index at which the two-character pattern `" ("` occurs. -/
def firstSpaceParen : Line → Option Nat
  | ' ' :: '(' :: _ => some 0
  | _ :: rest => (firstSpaceParen rest).map (· + 1)
  | [] => none

/-- Index of the last `')'` in the list, if any. -/
def lastCloseIdx (l : Line) : Option Nat :=
  (l.reverse.findIdx? (· = ')')).map (fun r => l.length - 1 - r)

/-- Model of `re.sub(r"^Icon=.* \(.*\)", f"Icon={icon_name}", line)`.
With Python's greedy matching and `.` not matching newlines, the pattern
matches iff the line starts with `Icon=` and, within the part before the
first newline, `" ("` occurs at some index `i` with a `')'` at some index
`≥ i + 2`; the match then extends to the last `')'` of that part, and the
matched text is replaced by `Icon=<icon>`. -/
def sub_paren (icon line : Line) : Line :=
  if (ofStr "Icon=").isPrefixOf line then
    match firstSpaceParen ((line.drop 5).takeWhile (· ≠ '\n')),
        lastCloseIdx ((line.drop 5).takeWhile (· ≠ '\n')) with
    | some i, some q =>
      if i + 2 ≤ q then
        ofStr "Icon=" ++ icon ++ ((line.drop 5).takeWhile (· ≠ '\n')).drop (q + 1)
          ++ (line.drop 5).dropWhile (· ≠ '\n')
      else line
    | _, _ => line
  else line

/-- Body of the per-line icon fix (core.py:300-307), applied to lines that
start with `Icon=`: the two substitutions, then the simplification branch
that forces `Icon=<icon>` followed by a newline whenever the stripped line
still differs from the target. -/
def fix_icon_line (icon line : Line) : Line :=
  if (ofStr "Icon=").isPrefixOf (sub_paren icon (sub_kit icon line)) &&
      (pyStripChars (sub_paren icon (sub_kit icon line)) != ofStr "Icon=" ++ icon) then
    ofStr "Icon=" ++ icon ++ ['\n']
  else sub_paren icon (sub_kit icon line)

/-- `fix_icon_references` (core.py:289): rewrites every `Icon=` line,
reporting whether any line changed. -/
def fix_icon_references (lines : List Line) (icon_name : Line) :
    List Line × Bool :=
  match lines with
  | [] => ([], false)
  | line :: rest =>
    let line2 := if (ofStr "Icon=").isPrefixOf line then fix_icon_line icon_name line else line
    let pr := fix_icon_references rest icon_name
    (line2 :: pr.1, (line2 != line) || pr.2)

/-! ### Sandbox rule (core.py:316-343) -/

/-- The pattern text `.AppImage` (9 characters). -/
def appImagePat : Line := ofStr ".AppImage"

/-- The replacement inserted by the sandbox rule. -/
def sandboxRepl : Line := ofStr ".AppImage --no-sandbox"

/-- Does the list start with `.AppImage` followed by a whitespace
character?  (A match of `(\.AppImage)(\s)` at position 0.) -/
def sandboxHit (l : Line) : Bool :=
  appImagePat.isPrefixOf l &&
    (match l.drop 9 with
     | w :: _ => pyIsSpace w
     | [] => false)

/-- Model of the global substitution
`re.sub(r"(\.AppImage)(\s)", r"\1 --no-sandbox\2", line)`: scan left to
right; at each match of `.AppImage` + whitespace, emit the replacement and
continue after the whitespace character; otherwise copy one character.
The scan is driven by a fuel argument (instantiated with the list length,
which bounds the number of steps) so that it is structurally recursive. -/
def sandboxScanF : Nat → Line → Line
  | _, [] => []
  | 0, l => l
  | fuel + 1, c :: cs =>
    if sandboxHit (c :: cs) then
      sandboxRepl ++ (cs.drop 8).take 1 ++ sandboxScanF fuel (cs.drop 9)
    else
      c :: sandboxScanF fuel cs

/-- The substitution `re.sub(r"(\.AppImage)(\s)", r"\1 --no-sandbox\2", line)`. -/
def sandboxScan (l : Line) : Line := sandboxScanF l.length l

/-- Model of `re.sub(r"(\.AppImage)$", r"\1 --no-sandbox", line)`: Python's
`$` matches at the true end of the string or just before a trailing
newline.  In the first case the flag is appended, in the second it is
inserted before the final newline. -/
def sub_end (line : Line) : Line :=
  if appImagePat.isSuffixOf line then line ++ ofStr " --no-sandbox"
  else if (appImagePat ++ ['\n']).isSuffixOf line then
    line.take (line.length - 1) ++ ofStr " --no-sandbox" ++ ['\n']
  else line

/-- Model of `re.sub(r"(\.AppImage)(\n)$", r"\1 --no-sandbox\2", line)`. -/
def sub_nl (line : Line) : Line :=
  if (appImagePat ++ ['\n']).isSuffixOf line then
    line.take (line.length - 1) ++ ofStr " --no-sandbox" ++ ['\n']
  else line

/-- The per-line processing of `add_no_sandbox_flag` (core.py:326-341):
lines starting with `Exec=` and containing `.AppImage` go through the
three substitutions in order; every other line is unchanged. -/
def sandboxExecLine (line : Line) : Line :=
  if (ofStr "Exec=").isPrefixOf line && substr appImagePat line then
    sub_nl (sub_end (sandboxScan line))
  else line

/-- The per-line loop of `add_no_sandbox_flag`, accumulating the
`modified` flag. -/
def addNoSandboxGo : List Line → List Line × Bool
  | [] => ([], false)
  | line :: rest =>
    let line2 := sandboxExecLine line
    let pr := addNoSandboxGo rest
    (line2 :: pr.1, (line2 != line) || pr.2)

/-- `add_no_sandbox_flag` (core.py:316): no-op when the flag token already
occurs anywhere; otherwise the per-line rewriting. -/
def add_no_sandbox_flag (lines : List Line) : List Line × Bool :=
  if lines.any (fun l => substr (ofStr "--no-sandbox") l) then (lines, false)
  else addNoSandboxGo lines

/-! ### needs_fixing and the fix protocol (core.py:345-418) -/

/-- `needs_fixing` (core.py:345), on the lines read from the file: an
empty read means nothing to do; otherwise the joined content must contain
the exact line `Icon=<icon>` and, when the sandbox flag is required, the
flag token. -/
def needs_fixing (lines : List Line) (icon_name : Line)
    (needs_no_sandbox : Bool) : Bool :=
  if lines.isEmpty then false
  else
    !((substr (ofStr "Icon=" ++ icon_name ++ ['\n']) lines.flatten) &&
      (if needs_no_sandbox then substr (ofStr "--no-sandbox") lines.flatten else true))

/-- Observable file-system mutations performed by `fix_desktop_file`:
creating the `.bak` backup copy and writing the desktop file. -/
inductive FixEvent
  | backup
  | write
deriving DecidableEq, Repr

/-- Outcome of a `fix_desktop_file` run: the ordered list of mutation
events, the resulting desktop-file contents, and the returned boolean. -/
structure FixResult where
  trace : List FixEvent
  finalLines : List Line
  ret : Bool
deriving DecidableEq, Repr

/-- `fix_desktop_file` (core.py:365), for an existing readable file with
contents `lines`.  `backupOk` is whether `shutil.copy2` succeeds and
`writeOk` whether `write_desktop_file` succeeds; a failed write is
modelled as leaving the file unchanged.  The trace records a `backup`
event when the backup copy is created and a `write` event when the
desktop file is written. -/
def fix_desktop_file (lines : List Line) (backupOk writeOk : Bool) :
    FixResult :=
  match extract_app_name lines with
  | none => ⟨[], lines, false⟩
  | some app_name =>
    -- get_app_config: icon, needs_no_sandbox (always true)
    if !needs_fixing lines (get_app_config_icon app_name) true then
      ⟨[], lines, false⟩
    else if !backupOk then
      -- shutil.copy2 raised: log and return False, nothing written
      ⟨[], lines, false⟩
    else
      -- backup created; re-read the file (same contents); then the icon
      -- rule, the sandbox rule (needs_no_sandbox is always true), and the
      -- conditional write-back
      if lines.isEmpty then ⟨[FixEvent.backup], lines, false⟩
      else
        if (fix_icon_references lines (get_app_config_icon app_name)).2 ||
            (add_no_sandbox_flag
              (fix_icon_references lines (get_app_config_icon app_name)).1).2 then
          if writeOk then
            ⟨[FixEvent.backup, FixEvent.write],
              (add_no_sandbox_flag
                (fix_icon_references lines (get_app_config_icon app_name)).1).1,
              true⟩
          else ⟨[FixEvent.backup, FixEvent.write], lines, false⟩
        else ⟨[FixEvent.backup], lines, false⟩

/-! ### Version extraction (core.py:99-225) -/

/-- A match of `\d+\.\d+\.\d+` at the start of the list: three maximal
nonempty digit runs separated by dots (for this pattern, greedy matching
with backtracking coincides with maximal-run matching). -/
def matchVer3 (l : Line) : Option Line :=
  let d1 := l.takeWhile Char.isDigit
  if d1.isEmpty then none
  else
    match l.drop d1.length with
    | '.' :: r1 =>
      let d2 := r1.takeWhile Char.isDigit
      if d2.isEmpty then none
      else
        match r1.drop d2.length with
        | '.' :: r2 =>
          let d3 := r2.takeWhile Char.isDigit
          if d3.isEmpty then none else some (d1 ++ '.' :: d2 ++ '.' :: d3)
        | _ => none
    | _ => none

/-- Model of `re.search(r"(\d+\.\d+\.\d+)", s)`: the leftmost match. -/
def findVersion3 : Line → Option Line
  | [] => none
  | c :: cs =>
    match matchVer3 (c :: cs) with
    | some v => some v
    | none => findVersion3 cs

/-- A match of `\((\d+\.\d+\.\d+)\)` at the start of the list, returning
group 1. -/
def matchParenVer3 (l : Line) : Option Line :=
  match l with
  | '(' :: r =>
    match matchVer3 r with
    | some v =>
      match r.drop v.length with
      | ')' :: _ => some v
      | _ => none
    | none => none
  | _ => none

/-- Model of `re.search(r"\((\d+\.\d+\.\d+)\)", s)`: leftmost match,
group 1. -/
def findParenVer3 : Line → Option Line
  | [] => none
  | c :: cs =>
    match matchParenVer3 (c :: cs) with
    | some v => some v
    | none => findParenVer3 cs

/-- A match of `\((\d+)\)` at the start of the list, returning group 1. -/
def matchParenInt (l : Line) : Option Line :=
  match l with
  | '(' :: r =>
    let d := r.takeWhile Char.isDigit
    if d.isEmpty then none
    else
      match r.drop d.length with
      | ')' :: _ => some d
      | _ => none
  | _ => none

/-- Model of `re.search(r"\((\d+)\)", s)`: leftmost match, group 1. -/
def findParenInt : Line → Option Line
  | [] => none
  | c :: cs =>
    match matchParenInt (c :: cs) with
    | some v => some v
    | none => findParenInt cs

/-- `extract_desktop_version` (core.py:191), on the file's lines and the
file's own name: first the `X-AppImage-Version=` field, then a dotted
version in the file name, then a parenthesized qualifier in the `Name=`
value (dotted version first, single-integer fallback second). -/
def extract_desktop_version (lines : List Line) (filename : Line) :
    Option Line :=
  match lines.find? (fun l => (ofStr "X-AppImage-Version=").isPrefixOf l) with
  | some line => some (pyStripChars (line.drop 19))
  | none =>
    match findVersion3 filename with
    | some v => some v
    | none =>
      match extract_app_name lines with
      | some app_name =>
        match findParenVer3 app_name with
        | some v => some v
        | none =>
          match findParenInt app_name with
          | some v => some v
          | none => none
      | none => none

/-- First successful probe among an ordered list of optional results. -/
def firstSome : List (Option Line) → Option Line
  | [] => none
  | some v :: _ => some v
  | none :: rest => firstSome rest

/-- `Path.name`: the part of a POSIX path after the last `/`. -/
def pathName (p : Line) : Line :=
  (p.reverse.takeWhile (· ≠ '/')).reverse

/-- `extract_appimage_version` (core.py:99): `None` for a nonexistent
path, else the leftmost dotted version in the file name, else the first
successful external probe.  The three subprocess probes (appimagetool,
binwalk, file), which never execute the AppImage, are environment
parameters: `toolResults` lists the version each probe would yield. -/
def extract_appimage_version (pathExists : Bool) (filename : Line)
    (toolResults : List (Option Line)) : Option Line :=
  if !pathExists then none
  else
    match findVersion3 filename with
    | some v => some v
    | none => firstSome toolResults

/-! ### Exec-target extraction and version comparison (core.py:227-287,
613-642) -/

/-- `get_appimage_path_from_desktop` (core.py:227): for each `Exec=` line
in order, strip the value, take `split()[0]` — which raises `IndexError`
when the stripped value is empty — and return it if it ends in
`.AppImage`; otherwise keep scanning.  `Path(...)` is modelled by the
path string itself. -/
def get_appimage_path_from_desktop : List Line → Except String (Option Line)
  | [] => .ok none
  | line :: rest =>
    if (ofStr "Exec=").isPrefixOf line then
      match pyWords (pyStripChars (line.drop 5)) with
      | [] => .error "IndexError"
      | tok :: _ =>
        if appImagePat.isSuffixOf tok then .ok (some tok)
        else get_appimage_path_from_desktop rest
    else get_appimage_path_from_desktop rest

/-- Python truthiness of an optional string (`if not x`): `None` and the
empty string are falsy. -/
def truthy : Option Line → Bool
  | none => false
  | some s => !s.isEmpty

/-- Result record of `compare_versions`. -/
structure CompareResult where
  desktop_version : Option Line
  appimage_path : Option Line
  appimage_version : Option Line
  versions_match : Bool
  status : String
deriving DecidableEq, Repr

/-- `compare_versions` (core.py:247), for a desktop file given by its
lines and file name.  `binExists` tells whether a binary path exists on
disk and `toolResults` parametrizes the subprocess probes.  The
`IndexError` of the Exec-target extraction propagates.  The source tests
the version values with Python truthiness (`if not v`). -/
def compare_versions (lines : List Line) (filename : Line)
    (binExists : Line → Bool) (toolResults : List (Option Line)) :
    Except String CompareResult :=
  match get_appimage_path_from_desktop lines with
  | .error e => .error e
  | .ok ap =>
    if !truthy (extract_desktop_version lines filename) then
      .ok ⟨extract_desktop_version lines filename, ap, none, false,
        "no_desktop_version"⟩
    else
      match ap with
      | none =>
        .ok ⟨extract_desktop_version lines filename, none, none, false,
          "appimage_not_found"⟩
      | some p =>
        if !binExists p then
          .ok ⟨extract_desktop_version lines filename, some p, none, false,
            "appimage_not_found"⟩
        else
          if !truthy (extract_appimage_version true (pathName p) toolResults) then
            .ok ⟨extract_desktop_version lines filename, some p,
              extract_appimage_version true (pathName p) toolResults, false,
              "no_appimage_version"⟩
          else
            .ok ⟨extract_desktop_version lines filename, some p,
              extract_appimage_version true (pathName p) toolResults,
              extract_desktop_version lines filename ==
                extract_appimage_version true (pathName p) toolResults,
              if extract_desktop_version lines filename ==
                  extract_appimage_version true (pathName p) toolResults then
                "match"
              else "mismatch"⟩

/-- Result record of `compare_versions_with_db` (the not-found branch of
the source returns only the status key; the other fields then keep their
defaults). -/
structure DbCompareResult where
  status : String
  desktop_version : Option Line := none
  appimage_version : Option Line := none
  versions_match : Bool := false
deriving DecidableEq, Repr

/-- The appimage version drawn from the registry lookup in
`compare_versions_with_db`: `db_record["version"] if db_record else None`,
where `dbVersion = none` models "no record found" and `some v` a record
whose version column is `v`. -/
def dbRecordVersion (dbVersion : Option (Option Line)) : Option Line :=
  match dbVersion with
  | some v => v
  | none => none

/-- `compare_versions_with_db` (core.py:613).  `dbVersion` is the outcome
of the registry lookup by the binary's checksum.  Note that this variant
tests the version options with `is None`, not truthiness. -/
def compare_versions_with_db (lines : List Line) (filename : Line)
    (binExists : Line → Bool) (dbVersion : Option (Option Line)) :
    Except String DbCompareResult :=
  match get_appimage_path_from_desktop lines with
  | .error e => .error e
  | .ok none => .ok { status := "appimage_not_found" }
  | .ok (some p) =>
    if !binExists p then .ok { status := "appimage_not_found" }
    else
      if (extract_desktop_version lines filename).isNone &&
          (dbRecordVersion dbVersion).isNone then
        .ok ⟨"no_version", extract_desktop_version lines filename,
          dbRecordVersion dbVersion, false⟩
      else if (extract_desktop_version lines filename).isNone ||
          (dbRecordVersion dbVersion).isNone then
        .ok ⟨"no_version", extract_desktop_version lines filename,
          dbRecordVersion dbVersion, false⟩
      else
        .ok ⟨if extract_desktop_version lines filename ==
              dbRecordVersion dbVersion then "match" else "mismatch",
          extract_desktop_version lines filename, dbRecordVersion dbVersion,
          extract_desktop_version lines filename == dbRecordVersion dbVersion⟩

/-! ### Registry (database.py) -/

/-- A row of the `appimage_registry` table (the columns the claims are
about). -/
structure RegistryRecord where
  name : String
  version : Option String
  checksum : String
  file_path : String
deriving DecidableEq, Repr

/-- `cleanup_orphaned` (database.py:93): with an empty path list nothing
is touched and 0 is returned; otherwise
`DELETE FROM appimage_registry WHERE file_path NOT IN (paths)` keeps
exactly the records whose path is in the list and returns the rowcount of
deleted records. -/
def cleanup_orphaned (registry : List RegistryRecord)
    (existing_paths : List String) : List RegistryRecord × Nat :=
  if existing_paths.isEmpty then (registry, 0)
  else
    ((registry.filter (fun r => existing_paths.contains r.file_path)),
      registry.length -
        (registry.filter (fun r => existing_paths.contains r.file_path)).length)

/-! ### Helper lemmas -/

theorem substr_of_isPrefixOf {n h : Line} (hp : n.isPrefixOf h = true) :
    substr n h = true := by
  rw [substr.eq_def]
  simp [hp]

theorem substr_cons (n : Line) (c : Char) (h : Line)
    (hs : substr n h = true) : substr n (c :: h) = true := by
  rw [substr.eq_def]
  split
  · rfl
  · exact hs

theorem substr_append_mid (n pre suf : Line) :
    substr n (pre ++ (n ++ suf)) = true := by
  induction pre with
  | nil =>
    simp only [List.nil_append]
    exact substr_of_isPrefixOf
      ( List.isPrefixOf_iff_prefix.mpr (List.prefix_append n suf))
  | cons c cs ih =>
    simpa using substr_cons n c (cs ++ (n ++ suf)) ih

theorem dropWhile_of_forall_neg {p : Char → Bool} {l : Line}
    (h : ∀ c ∈ l, p c = false) : l.dropWhile p = l := by
  induction l with
  | nil => rfl
  | cons c cs ih =>
    rw [List.dropWhile_cons]
    simp [h c (by simp)]

theorem pyStripChars_nonspace_nl {x : Line} (hne : x ≠ [])
    (hx : ∀ c ∈ x, pyIsSpace c = false) :
    pyStripChars (x ++ ['\n']) = x := by
  unfold pyStripChars
  have h1 : (x ++ ['\n']).dropWhile pyIsSpace = x ++ ['\n'] := by
    match x, hne with
    | a :: as, _ =>
      rw [List.cons_append, List.dropWhile_cons]
      simp [hx a (by simp)]
  rw [h1]
  have h2 : (x ++ ['\n']).reverse = '\n' :: x.reverse := by simp
  rw [h2, List.dropWhile_cons]
  have h3 : pyIsSpace '\n' = true := by decide
  rw [if_pos h3, dropWhile_of_forall_neg (by
    intro c hc
    exact hx c (List.mem_reverse.mp hc))]
  simp

theorem get_map_line (f : Line → Line) (l : List Line) (i : Nat)
    (h1 : i < l.length) (h2 : i < (l.map f).length) :
    (l.map f).get ⟨i, h2⟩ = f (l.get ⟨i, h1⟩) := by
  simp

/-! Lemmas about the icon rule. -/

theorem sub_kit_startsWith {icon line : Line}
    (h : (ofStr "Icon=").isPrefixOf line = true) :
    (ofStr "Icon=").isPrefixOf (sub_kit icon line) = true := by
  unfold sub_kit
  split
  · rw [ List.isPrefixOf_iff_prefix]
    rw [List.append_assoc]
    exact List.prefix_append _ _
  · exact h

theorem sub_paren_startsWith {icon line : Line}
    (h : (ofStr "Icon=").isPrefixOf line = true) :
    (ofStr "Icon=").isPrefixOf (sub_paren icon line) = true := by
  unfold sub_paren
  repeat' split
  all_goals first
    | exact h
    | (rw [ List.isPrefixOf_iff_prefix, List.append_assoc]
       exact List.prefix_append _ _)

theorem fix_icon_line_strip {icon line : Line}
    (hline : (ofStr "Icon=").isPrefixOf line = true)
    (hicon : ∀ c ∈ icon, pyIsSpace c = false) :
    pyStripChars (fix_icon_line icon line) = ofStr "Icon=" ++ icon := by
  have hpre : (ofStr "Icon=").isPrefixOf (sub_paren icon (sub_kit icon line)) = true :=
    sub_paren_startsWith (sub_kit_startsWith hline)
  unfold fix_icon_line
  split
  · apply pyStripChars_nonspace_nl
    · simp [ofStr]
    · intro c hc
      rcases List.mem_append.mp hc with hc1 | hc2
      · have hall : ∀ x ∈ ofStr "Icon=", pyIsSpace x = false := by decide
        exact hall c hc1
      · exact hicon c hc2
  · rename_i hcond
    rw [hpre] at hcond
    simp only [Bool.true_and] at hcond
    simpa using hcond

theorem fix_icon_references_fst (lines : List Line) (icon : Line) :
    (fix_icon_references lines icon).1 =
      lines.map (fun line =>
        if (ofStr "Icon=").isPrefixOf line then fix_icon_line icon line
        else line) := by
  induction lines with
  | nil => rfl
  | cons l rest ih => simp [fix_icon_references, ih]

/-! Lemmas about the sandbox rule. -/

theorem sandboxScanF_stable (f1 : Nat) : ∀ (f2 : Nat) (l : Line),
    l.length ≤ f1 → l.length ≤ f2 →
    sandboxScanF f1 l = sandboxScanF f2 l := by
  induction f1 with
  | zero =>
    intro f2 l h1 h2
    match l with
    | [] => cases f2 <;> rfl
    | c :: cs => simp at h1
  | succ n ih =>
    intro f2 l h1 h2
    match l with
    | [] => cases f2 <;> rfl
    | c :: cs =>
      match f2 with
      | 0 => simp at h2
      | m + 1 =>
        simp only [sandboxScanF]
        by_cases hhit : sandboxHit (c :: cs) = true
        · rw [if_pos hhit, if_pos hhit]
          have h9 : (cs.drop 9).length ≤ n := by
            simp only [List.length_cons] at h1
            simp only [List.length_drop]
            omega
          have h9m : (cs.drop 9).length ≤ m := by
            simp only [List.length_cons] at h2
            simp only [List.length_drop]
            omega
          rw [ih m (cs.drop 9) h9 h9m]
        · rw [if_neg hhit, if_neg hhit]
          have hc : cs.length ≤ n := by
            simp only [List.length_cons] at h1
            omega
          have hcm : cs.length ≤ m := by
            simp only [List.length_cons] at h2
            omega
          rw [ih m cs hc hcm]

theorem sandboxScan_hit {c : Char} {cs : Line}
    (h : sandboxHit (c :: cs) = true) :
    sandboxScan (c :: cs) =
      sandboxRepl ++ (cs.drop 8).take 1 ++ sandboxScan (cs.drop 9) := by
  unfold sandboxScan
  simp only [List.length_cons, sandboxScanF, if_pos h]
  rw [sandboxScanF_stable cs.length (cs.drop 9).length (cs.drop 9)
    (by simp only [List.length_drop]; omega) le_rfl]

theorem sandboxScan_miss {c : Char} {cs : Line}
    (h : sandboxHit (c :: cs) = false) :
    sandboxScan (c :: cs) = c :: sandboxScan cs := by
  unfold sandboxScan
  simp only [List.length_cons, sandboxScanF,
    if_neg (by rw [h]; simp : ¬ sandboxHit (c :: cs) = true)]

theorem sandboxScan_inserts_aux (n : Nat) : ∀ l : Line, l.length ≤ n →
    (appImagePat ++ ['\n']) <:+ l →
    ∃ pre suf, sandboxScan l = pre ++ sandboxRepl ++ suf := by
  induction n with
  | zero =>
    intro l hl h
    have := h.length_le
    simp [appImagePat, ofStr] at this
    omega
  | succ n ih =>
    intro l hl h
    match l with
    | [] =>
      have := h.length_le
      simp [appImagePat, ofStr] at this
    | c :: cs =>
      by_cases hhit : sandboxHit (c :: cs) = true
      · refine ⟨[], (cs.drop 8).take 1 ++ sandboxScan (cs.drop 9), ?_⟩
        rw [sandboxScan_hit hhit]
        simp
      · have hfalse : sandboxHit (c :: cs) = false := by
          simpa using hhit
        rw [sandboxScan_miss hfalse]
        rcases List.suffix_cons_iff.mp h with heq | hsuf
        · exfalso
          rw [← heq] at hfalse
          revert hfalse
          decide
        · obtain ⟨pre, suf, hps⟩ := ih cs
            (by simp at hl; omega) hsuf
          exact ⟨c :: pre, suf, by simp [hps]⟩

theorem sandboxScan_inserts {l : Line}
    (h : (appImagePat ++ ['\n']) <:+ l) :
    ∃ pre suf, sandboxScan l = pre ++ sandboxRepl ++ suf :=
  sandboxScan_inserts_aux l.length l le_rfl h

theorem suffix_right_of_length_le {s a b : Line} (h : s <:+ a ++ b)
    (hl : s.length ≤ b.length) : s <:+ b := by
  obtain ⟨u, hu⟩ := h
  have hlen : a.length ≤ u.length := by
    have := congrArg List.length hu
    simp only [List.length_append] at this
    omega
  have h2 := congrArg (List.drop a.length) hu
  rw [List.drop_append_of_le_length hlen, List.drop_left] at h2
  exact ⟨u.drop a.length, h2⟩

theorem take_pred_append (a b : Line) (hb : b ≠ []) :
    (a ++ b).take ((a ++ b).length - 1) = a ++ b.take (b.length - 1) := by
  have hb0 : b.length ≠ 0 := by
    intro h0
    exact hb (List.length_eq_zero.mp h0)
  have hlen : (a ++ b).length - 1 = a.length + (b.length - 1) := by
    simp only [List.length_append]
    omega
  rw [hlen, List.take_append]

theorem sub_end_preserves {l : Line}
    (h : ∃ pre suf, l = pre ++ sandboxRepl ++ suf) :
    ∃ pre suf, sub_end l = pre ++ sandboxRepl ++ suf := by
  obtain ⟨pre, suf, rfl⟩ := h
  unfold sub_end
  split
  · exact ⟨pre, suf ++ ofStr " --no-sandbox", by simp⟩
  split
  · rename_i hsfx
    have hsuf : suf ≠ [] := by
      intro hs
      subst hs
      rw [List.isSuffixOf_iff_suffix] at hsfx
      have hcat : pre ++ sandboxRepl ++ ([] : Line) = pre ++ sandboxRepl := by simp
      rw [hcat] at hsfx
      have : (appImagePat ++ ['\n']) <:+ sandboxRepl :=
        suffix_right_of_length_le hsfx (by decide)
      revert this
      decide
    refine ⟨pre, suf.take (suf.length - 1) ++ ofStr " --no-sandbox" ++ ['\n'], ?_⟩
    rw [show pre ++ sandboxRepl ++ suf = (pre ++ sandboxRepl) ++ suf from by simp,
      take_pred_append _ _ hsuf]
    simp
  · exact ⟨pre, suf, rfl⟩

theorem sub_nl_preserves {l : Line}
    (h : ∃ pre suf, l = pre ++ sandboxRepl ++ suf) :
    ∃ pre suf, sub_nl l = pre ++ sandboxRepl ++ suf := by
  obtain ⟨pre, suf, rfl⟩ := h
  unfold sub_nl
  split
  · rename_i hsfx
    have hsuf : suf ≠ [] := by
      intro hs
      subst hs
      rw [List.isSuffixOf_iff_suffix] at hsfx
      have hcat : pre ++ sandboxRepl ++ ([] : Line) = pre ++ sandboxRepl := by simp
      rw [hcat] at hsfx
      have : (appImagePat ++ ['\n']) <:+ sandboxRepl :=
        suffix_right_of_length_le hsfx (by decide)
      revert this
      decide
    refine ⟨pre, suf.take (suf.length - 1) ++ ofStr " --no-sandbox" ++ ['\n'], ?_⟩
    rw [show pre ++ sandboxRepl ++ suf = (pre ++ sandboxRepl) ++ suf from by simp,
      take_pred_append _ _ hsuf]
    simp
  · exact ⟨pre, suf, rfl⟩

theorem substr_append_mid2 (n a b s : Line) :
    substr n (a ++ (b ++ (n ++ s))) = true := by
  have h := substr_append_mid n (a ++ b) s
  rwa [List.append_assoc] at h

theorem addNoSandboxGo_fst (lines : List Line) :
    (addNoSandboxGo lines).1 = lines.map sandboxExecLine := by
  induction lines with
  | nil => rfl
  | cons l rest ih => simp [addNoSandboxGo, ih]

/-! ### Claims -/

/-- Claim C5: for every line sequence in which the token `--no-sandbox`
occurs anywhere (in any line, at any position), `add_no_sandbox_flag`
returns the input lines unchanged and reports changed = false. -/
theorem C5_flag_present_noop (lines : List Line)
    (h : ∃ l ∈ lines, substr (ofStr "--no-sandbox") l = true) :
    add_no_sandbox_flag lines = (lines, false) := by
  have hany : lines.any (fun l => substr (ofStr "--no-sandbox") l) = true := by
    obtain ⟨l, hl, hs⟩ := h
    exact List.any_eq_true.mpr ⟨l, hl, hs⟩
  unfold add_no_sandbox_flag
  rw [if_pos hany]

/-- Witness for C5 at a concrete desktop file whose Exec line already
carries the flag. -/
theorem C5_witness :
    add_no_sandbox_flag [ofStr "Exec=/home/u/App.AppImage --no-sandbox\n"] =
      ([ofStr "Exec=/home/u/App.AppImage --no-sandbox\n"], false) :=
  C5_flag_present_noop _ ⟨ofStr "Exec=/home/u/App.AppImage --no-sandbox\n",
    by decide, by decide⟩

/-- Claim C7: `cleanup_orphaned` with an empty list of live paths removes
zero records and leaves the registry unchanged, regardless of its
contents; with a non-empty list it deletes exactly the records whose
`file_path` is not in the list (a record survives iff its path is listed,
and the removal count plus the surviving count is the registry size). -/
theorem C7_prune_orphans (registry : List RegistryRecord)
    (paths : List String) :
    (paths = [] → cleanup_orphaned registry paths = (registry, 0)) ∧
    (paths ≠ [] → ∀ r : RegistryRecord,
      (r ∈ (cleanup_orphaned registry paths).1 ↔
        r ∈ registry ∧ r.file_path ∈ paths)) ∧
    (paths ≠ [] →
      (cleanup_orphaned registry paths).2 +
        (cleanup_orphaned registry paths).1.length = registry.length) := by
  refine ⟨?_, ?_, ?_⟩
  · intro h
    subst h
    rfl
  · intro hne r
    unfold cleanup_orphaned
    rw [if_neg (by simpa using hne)]
    simp only [List.mem_filter]
    constructor
    · rintro ⟨h1, h2⟩
      exact ⟨h1, List.elem_iff.mp h2⟩
    · rintro ⟨h1, h2⟩
      exact ⟨h1, List.elem_iff.mpr h2⟩
  · intro hne
    unfold cleanup_orphaned
    rw [if_neg (by simpa using hne)]
    have hle := List.length_filter_le
      (fun r : RegistryRecord => paths.contains r.file_path) registry
    simp only []
    omega

/-- Witness for C7 at the registry of the specification's example: two
records, one live path, exactly the record for the other path removed. -/
theorem C7_witness :
    (⟨"app2", none, "c2", "/a/app2.AppImage"⟩ : RegistryRecord) ∈
        (cleanup_orphaned
          [⟨"app1", none, "c1", "/a/app1.AppImage"⟩,
           ⟨"app2", none, "c2", "/a/app2.AppImage"⟩]
          ["/a/app1.AppImage"]).1 ↔
      (⟨"app2", none, "c2", "/a/app2.AppImage"⟩ : RegistryRecord) ∈
          [(⟨"app1", none, "c1", "/a/app1.AppImage"⟩ : RegistryRecord),
           ⟨"app2", none, "c2", "/a/app2.AppImage"⟩] ∧
        "/a/app2.AppImage" ∈ ["/a/app1.AppImage"] :=
  (C7_prune_orphans
    [⟨"app1", none, "c1", "/a/app1.AppImage"⟩,
     ⟨"app2", none, "c2", "/a/app2.AppImage"⟩]
    ["/a/app1.AppImage"]).2.1 (by decide) _

/-- Claim C9 (code bug): `get_appimage_path_from_desktop` is claimed to
evaluate totally, treating an empty Exec value as "no AppImage target";
on a line whose `Exec=` value is empty the code instead indexes an empty
`split()` result and raises `IndexError`. -/
theorem C9_empty_exec_indexerror :
    get_appimage_path_from_desktop [ofStr "Exec=\n"] =
      Except.error "IndexError" := rfl

/-- Claim C4 counterexample: on a final line that lacks its trailing
newline, the icon rule rewrites `Icon=appimagekit_myapp_1.2.3` (the
claim's own example input, without a newline) to `Icon=myapp` with no
trailing newline character, not to `Icon=myapp\n`. -/
theorem C4_cex :
    fix_icon_references [ofStr "Icon=appimagekit_myapp_1.2.3"]
        (ofStr "myapp") = ([ofStr "Icon=myapp"], true) ∧
      ofStr "Icon=myapp" ≠ ofStr "Icon=myapp" ++ ['\n'] := by
  decide

/-- Claim C4 (amended): for an icon name containing no whitespace, after
`fix_icon_references` no line is added or removed, every line not
starting with `Icon=` is byte-identical, and every line that started
with `Icon=` strips (after removing surrounding whitespace, in
particular its trailing newline when present) to exactly
`Icon=<iconName>`; the claim's example with its newline,
`Icon=appimagekit_myapp_1.2.3\n` with target `myapp`, yields
`Icon=myapp\n` with changed = true. -/
theorem C4_icon_rule (lines : List Line) (icon : Line)
    (hicon : ∀ c ∈ icon, pyIsSpace c = false) :
    ((fix_icon_references lines icon).1.length = lines.length) ∧
    (∀ i l, lines.get? i = some l →
      (ofStr "Icon=").isPrefixOf l = false →
      (fix_icon_references lines icon).1.get? i = some l) ∧
    (∀ i l, lines.get? i = some l →
      (ofStr "Icon=").isPrefixOf l = true →
      ∃ l2, (fix_icon_references lines icon).1.get? i = some l2 ∧
        pyStripChars l2 = ofStr "Icon=" ++ icon) ∧
    fix_icon_references [ofStr "Icon=appimagekit_myapp_1.2.3\n"]
        (ofStr "myapp") = ([ofStr "Icon=myapp\n"], true) := by
  refine ⟨?_, ?_, ?_, by decide⟩
  · rw [fix_icon_references_fst]
    simp
  · intro i l hl hni
    rw [fix_icon_references_fst, List.get?_eq_getElem?, List.getElem?_map]
    rw [List.get?_eq_getElem?] at hl
    rw [hl]
    simp only [Option.map_some']
    rw [if_neg (by rw [hni]; simp)]
  · intro i l hl hyi
    refine ⟨fix_icon_line icon l, ?_, fix_icon_line_strip hyi hicon⟩
    rw [fix_icon_references_fst, List.get?_eq_getElem?, List.getElem?_map]
    rw [List.get?_eq_getElem?] at hl
    rw [hl]
    simp only [Option.map_some']
    rw [if_pos hyi]

/-- Witness for C4 at a concrete `Icon=` line that differs from the
target. -/
theorem C4_witness :
    ∃ l2, (fix_icon_references [ofStr "Icon=oldname\n"]
        (ofStr "myapp")).1.get? 0 = some l2 ∧
      pyStripChars l2 = ofStr "Icon=" ++ ofStr "myapp" :=
  (C4_icon_rule [ofStr "Icon=oldname\n"] (ofStr "myapp")
    (by decide)).2.2.1 0 (ofStr "Icon=oldname\n") rfl (by decide)

theorem fix_trace_cases (lines : List Line) (b w : Bool) :
    (fix_desktop_file lines b w).trace = [] ∨
    (fix_desktop_file lines b w).trace = [FixEvent.backup] ∨
    (fix_desktop_file lines b w).trace = [FixEvent.backup, FixEvent.write] := by
  unfold fix_desktop_file
  repeat' split
  all_goals simp

theorem needs_fixing_ne_nil {lines : List Line} {icon : Line} {b : Bool}
    (h : needs_fixing lines icon b = true) : lines.isEmpty = false := by
  by_contra hne
  have hemp : lines.isEmpty = true := by
    cases he : lines.isEmpty
    · exact absurd he hne
    · rfl
  unfold needs_fixing at h
  rw [if_pos hemp] at h
  exact Bool.false_ne_true h

/-- Claim C1 counterexample: a file with a `Name=` line, no `Icon=` line,
and the sandbox flag already present: `needs_fixing` (at the icon and
sandbox parameters the fix protocol derives) returns true, yet the fix
protocol performs zero writes, so `needsFixing = false` is not equivalent
to "zero writes". -/
theorem C1_cex :
    extract_app_name
        [ofStr "Name=MyApp\n", ofStr "Exec=/a/app.AppImage --no-sandbox\n"] =
      some (ofStr "MyApp") ∧
    needs_fixing
        [ofStr "Name=MyApp\n", ofStr "Exec=/a/app.AppImage --no-sandbox\n"]
        (get_app_config_icon (ofStr "MyApp")) true = true ∧
    FixEvent.write ∉
      (fix_desktop_file
        [ofStr "Name=MyApp\n", ofStr "Exec=/a/app.AppImage --no-sandbox\n"]
        true true).trace := by
  refine ⟨by decide, by decide, ?_⟩
  decide

/-- Claim C1 (amended): the forward direction holds — whenever
`needs_fixing`, taken at the icon name and sandbox requirement that
`fix_desktop_file` itself derives from the `Name=` field, returns false,
the fix protocol performs zero writes.  (The converse direction is
refuted by the counterexample: `needs_fixing` may return true while both
rules report no change, in which case no write happens either.) -/
theorem C1_no_fix_no_write (lines : List Line) (name : Line) (backupOk writeOk : Bool)
    (hname : extract_app_name lines = some name)
    (hnf : needs_fixing lines (get_app_config_icon name) true = false) :
    FixEvent.write ∉ (fix_desktop_file lines backupOk writeOk).trace := by
  unfold fix_desktop_file
  rw [hname]
  simp [hnf]

/-- Witness for C1 at a fully compliant concrete file. -/
theorem C1_witness :
    FixEvent.write ∉
      (fix_desktop_file
        [ofStr "Name=MyApp\n", ofStr "Icon=myapp\n",
         ofStr "Exec=/a/app.AppImage --no-sandbox\n"] true true).trace :=
  C1_no_fix_no_write _ (ofStr "MyApp") true true (by decide) (by decide)

/-- Claim C3: when backup creation fails, the fix protocol aborts without
any write, the file contents stay unchanged and the function reports
false; and in every run, any write to the desktop file is preceded in the
event trace by the creation of the `.bak` backup copy. -/
theorem C3_backup_before_write (lines : List Line) (writeOk : Bool) :
    FixEvent.write ∉ (fix_desktop_file lines false writeOk).trace ∧
    (fix_desktop_file lines false writeOk).finalLines = lines ∧
    (fix_desktop_file lines false writeOk).ret = false ∧
    (∀ backupOk : Bool,
      FixEvent.write ∈ (fix_desktop_file lines backupOk writeOk).trace →
      FixEvent.backup ∈
        (fix_desktop_file lines backupOk writeOk).trace.takeWhile
          (fun e => e != FixEvent.write)) := by
  refine ⟨?_, ?_, ?_, ?_⟩
  · unfold fix_desktop_file
    split
    · simp
    · split
      · simp
      · simp
  · unfold fix_desktop_file
    split
    · simp
    · split
      · simp
      · simp
  · unfold fix_desktop_file
    split
    · simp
    · split
      · simp
      · simp
  · intro b hmem
    rcases fix_trace_cases lines b writeOk with h | h | h
    · rw [h] at hmem
      simp at hmem
    · rw [h] at hmem
      simp at hmem
    · rw [h] at hmem ⊢
      decide

/-- Witness for C3 at a concrete run that does write: the trace is
`[backup, write]`, and the backup precedes the write. -/
theorem C3_witness :
    FixEvent.backup ∈
      (fix_desktop_file [ofStr "Name=My App\n", ofStr "Exec=/a/b.AppImage\n"]
        true true).trace.takeWhile (fun e => e != FixEvent.write) :=
  (C3_backup_before_write [ofStr "Name=My App\n", ofStr "Exec=/a/b.AppImage\n"]
    true).2.2.2 true (by decide)

/-- Claim C10: for a readable file with a `Name=` line for which
`needs_fixing` is true, `fix_desktop_file` creates the backup copy before
applying the rules; in particular, when neither the icon rule nor the
sandbox rule changes any line, the backup is still created even though
the desktop file is never written and the function returns false. -/
theorem C10_backup_without_write (lines : List Line) (name : Line) (writeOk : Bool)
    (hname : extract_app_name lines = some name)
    (hnf : needs_fixing lines (get_app_config_icon name) true = true) :
    FixEvent.backup ∈ (fix_desktop_file lines true writeOk).trace ∧
    ((fix_icon_references lines (get_app_config_icon name)).2 = false →
      (add_no_sandbox_flag
        (fix_icon_references lines (get_app_config_icon name)).1).2 = false →
      FixEvent.write ∉ (fix_desktop_file lines true writeOk).trace ∧
      (fix_desktop_file lines true writeOk).ret = false ∧
      (fix_desktop_file lines true writeOk).finalLines = lines) := by
  have hne := needs_fixing_ne_nil hnf
  unfold fix_desktop_file
  rw [hname]
  simp only [hnf, hne, Bool.not_true, Bool.not_false, if_false, if_true,
    Bool.false_eq_true, ite_false, ite_true]
  constructor
  · split
    · split <;> simp
    · simp
  · intro hicon hsand
    rw [hicon, hsand]
    simp

/-- Witness for C10: a file with no `Icon=` line whose Exec already has
the sandbox flag — `needs_fixing` is true, the backup happens, nothing is
written, and the function returns false. -/
theorem C10_witness :
    FixEvent.backup ∈
      (fix_desktop_file
        [ofStr "Name=Warp Terminal\n",
         ofStr "Exec=/opt/warp.AppImage --no-sandbox\n"] true true).trace ∧
    (FixEvent.write ∉
      (fix_desktop_file
        [ofStr "Name=Warp Terminal\n",
         ofStr "Exec=/opt/warp.AppImage --no-sandbox\n"] true true).trace ∧
    (fix_desktop_file
        [ofStr "Name=Warp Terminal\n",
         ofStr "Exec=/opt/warp.AppImage --no-sandbox\n"] true true).ret = false ∧
    (fix_desktop_file
        [ofStr "Name=Warp Terminal\n",
         ofStr "Exec=/opt/warp.AppImage --no-sandbox\n"] true true).finalLines =
      [ofStr "Name=Warp Terminal\n",
       ofStr "Exec=/opt/warp.AppImage --no-sandbox\n"]) :=
  ⟨(C10_backup_without_write _ (ofStr "Warp Terminal") true (by decide)
      (by decide)).1,
   (C10_backup_without_write _ (ofStr "Warp Terminal") true (by decide)
      (by decide)).2 (by decide) (by decide)⟩

/-- Claim C2 counterexample: with the flag absent, a file with two `Exec=`
lines each containing `.AppImage` has the token inserted into BOTH lines
— the second `Exec=` line is not left unchanged as claimed. -/
theorem C2_cex :
    add_no_sandbox_flag
        [ofStr "Exec=/a/App.AppImage\n", ofStr "Exec=/b/App.AppImage\n"] =
      ([ofStr "Exec=/a/App.AppImage --no-sandbox\n",
        ofStr "Exec=/b/App.AppImage --no-sandbox\n"], true) ∧
    (add_no_sandbox_flag
        [ofStr "Exec=/a/App.AppImage\n", ofStr "Exec=/b/App.AppImage\n"]).1.get? 1 ≠
      some (ofStr "Exec=/b/App.AppImage\n") := by
  decide

/-- Claim C2 (amended): when the sandbox flag token is absent from every
line, `add_no_sandbox_flag` processes EVERY line starting with `Exec=`
that contains `.AppImage`, not only the first: no line is added or
removed, every line that does not both start with `Exec=` and contain
`.AppImage` is unchanged, and every `Exec=` line ending in `.AppImage`
followed by its newline gets the token inserted (so it changes). -/
theorem C2_every_exec_line (lines : List Line)
    (hno : ∀ l ∈ lines, substr (ofStr "--no-sandbox") l = false) :
    ((add_no_sandbox_flag lines).1.length = lines.length) ∧
    (∀ i l, lines.get? i = some l →
      ((ofStr "Exec=").isPrefixOf l && substr appImagePat l) = false →
      (add_no_sandbox_flag lines).1.get? i = some l) ∧
    (∀ i l, lines.get? i = some l →
      (ofStr "Exec=").isPrefixOf l = true →
      (appImagePat ++ ['\n']) <:+ l →
      ∃ l2, (add_no_sandbox_flag lines).1.get? i = some l2 ∧
        substr (ofStr "--no-sandbox") l2 = true ∧ l2 ≠ l) := by
  have hany : lines.any (fun l => substr (ofStr "--no-sandbox") l) = false := by
    rw [List.any_eq_false]
    intro l hl
    rw [hno l hl]
    simp
  have hout : (add_no_sandbox_flag lines).1 = lines.map sandboxExecLine := by
    unfold add_no_sandbox_flag
    rw [if_neg (by rw [hany]; simp)]
    exact addNoSandboxGo_fst lines
  refine ⟨by rw [hout]; simp, ?_, ?_⟩
  · intro i l hl hcond
    rw [hout, List.get?_eq_getElem?, List.getElem?_map]
    rw [List.get?_eq_getElem?] at hl
    rw [hl]
    simp only [Option.map_some']
    unfold sandboxExecLine
    rw [if_neg (by rw [hcond]; simp)]
  · intro i l hl hexec hsfx
    -- the guard in the per-line processing holds
    have hcontains : substr appImagePat l = true := by
      obtain ⟨u, hu⟩ := hsfx
      rw [← hu]
      exact substr_append_mid appImagePat u ['\n']
    have hguard : ((ofStr "Exec=").isPrefixOf l && substr appImagePat l) = true := by
      rw [hexec, hcontains]
      rfl
    have hline : sandboxExecLine l = sub_nl (sub_end (sandboxScan l)) := by
      unfold sandboxExecLine
      rw [if_pos hguard]
    obtain ⟨pre, suf, hform⟩ :=
      sub_nl_preserves (sub_end_preserves (sandboxScan_inserts hsfx))
    have htok : substr (ofStr "--no-sandbox") (sandboxExecLine l) = true := by
      rw [hline, hform,
        show sandboxRepl = ofStr ".AppImage " ++ ofStr "--no-sandbox" from rfl]
      simp only [List.append_assoc]
      exact substr_append_mid2 _ _ _ _
    refine ⟨sandboxExecLine l, ?_, htok, ?_⟩
    · rw [hout, List.get?_eq_getElem?, List.getElem?_map]
      rw [List.get?_eq_getElem?] at hl
      rw [hl]
      simp only [Option.map_some']
    · intro heq
      have hmem : l ∈ lines := by
        rw [List.get?_eq_getElem?] at hl
        exact List.getElem?_mem hl
      have hfalse := hno l hmem
      rw [heq] at htok
      rw [htok] at hfalse
      exact absurd hfalse (by decide)

/-- Witness for C2 at a single compliant Exec line lacking the flag. -/
theorem C2_witness :
    ∃ l2, (add_no_sandbox_flag [ofStr "Exec=/b/App.AppImage\n"]).1.get? 0 =
        some l2 ∧
      substr (ofStr "--no-sandbox") l2 = true ∧
      l2 ≠ ofStr "Exec=/b/App.AppImage\n" :=
  (C2_every_exec_line [ofStr "Exec=/b/App.AppImage\n"]
    (by decide)).2.2 0 (ofStr "Exec=/b/App.AppImage\n") rfl (by decide)
    (by decide)

theorem find?_of_filter_cons {p : Line → Bool} {lines : List Line}
    {l0 : Line} {rest : List Line}
    (h : lines.filter p = l0 :: rest) : lines.find? p = some l0 := by
  induction lines generalizing rest with
  | nil => simp at h
  | cons a as ih =>
    rw [List.filter_cons] at h
    by_cases hp : p a = true
    · rw [if_pos hp] at h
      rw [List.find?_cons_of_pos _ hp]
      exact congrArg some (List.cons.inj h).1
    · rw [if_neg hp] at h
      rw [List.find?_cons_of_neg _ hp]
      exact ih h

/-- Claim C6: `extract_desktop_version` obeys the strict three-source
precedence: the value of the first `X-AppImage-Version=` line (trimmed)
wins; otherwise the leftmost `\d+\.\d+\.\d+` substring of the file's own
name; otherwise a parenthesized qualifier inside the `Name=` value, the
three-part dotted form before the single-integer fallback; a later source
is consulted only when every earlier one failed, and if all fail the
result is absent. -/
theorem C6_version_precedence (lines : List Line) (filename : Line) :
    (∀ l0 rest,
      lines.filter (fun l => (ofStr "X-AppImage-Version=").isPrefixOf l) =
        l0 :: rest →
      extract_desktop_version lines filename =
        some (pyStripChars (l0.drop 19))) ∧
    (lines.all (fun l => !(ofStr "X-AppImage-Version=").isPrefixOf l) = true →
      (∀ v, findVersion3 filename = some v →
        extract_desktop_version lines filename = some v) ∧
      (findVersion3 filename = none →
        (∀ name, extract_app_name lines = some name →
          (∀ v, findParenVer3 name = some v →
            extract_desktop_version lines filename = some v) ∧
          (findParenVer3 name = none →
            (∀ v, findParenInt name = some v →
              extract_desktop_version lines filename = some v) ∧
            (findParenInt name = none →
              extract_desktop_version lines filename = none))) ∧
        (extract_app_name lines = none →
          extract_desktop_version lines filename = none))) := by
  constructor
  · intro l0 rest h
    unfold extract_desktop_version
    rw [find?_of_filter_cons h]
  · intro hall
    have hfind : lines.find?
        (fun l => (ofStr "X-AppImage-Version=").isPrefixOf l) = none := by
      rw [List.find?_eq_none]
      intro x hx hcontra
      have hx2 := List.all_eq_true.mp hall x hx
      simp only [Bool.not_eq_true'] at hx2
      exact absurd hcontra (by simp [hx2])
    refine ⟨?_, ?_⟩
    · intro v hv
      unfold extract_desktop_version
      simp only [hfind, hv]
    · intro hnone
      refine ⟨?_, ?_⟩
      · intro name hname
        refine ⟨?_, ?_⟩
        · intro v hv
          unfold extract_desktop_version
          simp only [hfind, hnone, hname, hv]
        · intro hp3
          refine ⟨?_, ?_⟩
          · intro v hv
            unfold extract_desktop_version
            simp only [hfind, hnone, hname, hp3, hv]
          · intro hpi
            unfold extract_desktop_version
            simp only [hfind, hnone, hname, hp3, hpi]
      · intro hname
        unfold extract_desktop_version
        simp only [hfind, hnone, hname]

/-- Witness for C6 at the specification's scenario 4: `Name=Tool (1.4.5)`,
no explicit field, a file name without digits. -/
theorem C6_witness :
    extract_desktop_version [ofStr "Name=Tool (1.4.5)\n"]
      (ofStr "tool.desktop") = some (ofStr "1.4.5") :=
  ((((C6_version_precedence [ofStr "Name=Tool (1.4.5)\n"]
      (ofStr "tool.desktop")).2 (by decide)).2 (by decide)).1
    (ofStr "Tool (1.4.5)") (by decide)).1 (ofStr "1.4.5") (by decide)

theorem compare_versions_eq_no_desktop {lines : List Line} {filename : Line}
    {binExists : Line → Bool} {toolResults : List (Option Line)}
    {ap : Option Line}
    (hap : get_appimage_path_from_desktop lines = Except.ok ap)
    (h : truthy (extract_desktop_version lines filename) = false) :
    compare_versions lines filename binExists toolResults =
      Except.ok ⟨extract_desktop_version lines filename, ap, none, false,
        "no_desktop_version"⟩ := by
  unfold compare_versions
  rw [hap]
  dsimp only
  rw [if_pos (by rw [h]; rfl)]

theorem compare_versions_eq_not_found_none {lines : List Line}
    {filename : Line} {binExists : Line → Bool}
    {toolResults : List (Option Line)}
    (hap : get_appimage_path_from_desktop lines = Except.ok none)
    (h : truthy (extract_desktop_version lines filename) = true) :
    compare_versions lines filename binExists toolResults =
      Except.ok ⟨extract_desktop_version lines filename, none, none, false,
        "appimage_not_found"⟩ := by
  unfold compare_versions
  rw [hap]
  dsimp only
  rw [if_neg (by rw [h]; simp)]

theorem compare_versions_eq_not_found_gone {lines : List Line}
    {filename : Line} {binExists : Line → Bool}
    {toolResults : List (Option Line)} {p : Line}
    (hap : get_appimage_path_from_desktop lines = Except.ok (some p))
    (h : truthy (extract_desktop_version lines filename) = true)
    (hbe : binExists p = false) :
    compare_versions lines filename binExists toolResults =
      Except.ok ⟨extract_desktop_version lines filename, some p, none, false,
        "appimage_not_found"⟩ := by
  unfold compare_versions
  rw [hap]
  dsimp only
  rw [if_neg (by rw [h]; simp), if_pos (by rw [hbe]; rfl)]

theorem compare_versions_eq_no_binary_version {lines : List Line}
    {filename : Line} {binExists : Line → Bool}
    {toolResults : List (Option Line)} {p : Line}
    (hap : get_appimage_path_from_desktop lines = Except.ok (some p))
    (h : truthy (extract_desktop_version lines filename) = true)
    (hbe : binExists p = true)
    (hav : truthy (extract_appimage_version true (pathName p) toolResults) =
      false) :
    compare_versions lines filename binExists toolResults =
      Except.ok ⟨extract_desktop_version lines filename, some p,
        extract_appimage_version true (pathName p) toolResults, false,
        "no_appimage_version"⟩ := by
  unfold compare_versions
  rw [hap]
  dsimp only
  rw [if_neg (by rw [h]; simp), if_neg (by rw [hbe]; simp),
    if_pos (by rw [hav]; rfl)]

theorem compare_versions_eq_compared {lines : List Line} {filename : Line}
    {binExists : Line → Bool} {toolResults : List (Option Line)} {p : Line}
    (hap : get_appimage_path_from_desktop lines = Except.ok (some p))
    (h : truthy (extract_desktop_version lines filename) = true)
    (hbe : binExists p = true)
    (hav : truthy (extract_appimage_version true (pathName p) toolResults) =
      true) :
    compare_versions lines filename binExists toolResults =
      Except.ok ⟨extract_desktop_version lines filename, some p,
        extract_appimage_version true (pathName p) toolResults,
        extract_desktop_version lines filename ==
          extract_appimage_version true (pathName p) toolResults,
        if extract_desktop_version lines filename ==
            extract_appimage_version true (pathName p) toolResults then
          "match"
        else "mismatch"⟩ := by
  unfold compare_versions
  rw [hap]
  dsimp only
  rw [if_neg (by rw [h]; simp), if_neg (by rw [hbe]; simp),
    if_neg (by rw [hav]; simp)]

/-- Claim C8 counterexample: `compare_versions` does NOT always return a
status — on a desktop file whose `Exec=` value is empty, the underlying
Exec-target extraction raises `IndexError` and `compare_versions`
propagates it instead of producing any of the five statuses. -/
theorem C8_cex :
    compare_versions [ofStr "X-AppImage-Version=1.0\n", ofStr "Exec=\n"]
      (ofStr "a.desktop") (fun _ => true) [] =
      Except.error "IndexError" := rfl

/-- Claim C8 (amended): provided the Exec-target extraction does not raise
(the empty-Exec `IndexError`), `compare_versions` returns a status in
`{no_desktop_version, appimage_not_found, no_appimage_version, match,
mismatch}`, checked in that order: a non-truthy desktop version wins
(even if the binary is also missing), then a missing or nonexistent
binary path, then a non-truthy binary version, and otherwise the status
is `match` exactly when the two versions are equal; the registry-backed
`compare_versions_with_db` collapses the cases where either or both
versions are absent (`None`) into the single status `no_version`. -/
theorem C8_compare_statuses (lines : List Line) (filename : Line)
    (binExists : Line → Bool) (toolResults : List (Option Line))
    (dbVersion : Option (Option Line)) (ap : Option Line)
    (hap : get_appimage_path_from_desktop lines = Except.ok ap) :
    (∃ r : CompareResult,
      compare_versions lines filename binExists toolResults = Except.ok r ∧
      r.status ∈ ["no_desktop_version", "appimage_not_found",
        "no_appimage_version", "match", "mismatch"]) ∧
    (truthy (extract_desktop_version lines filename) = false →
      ∃ r, compare_versions lines filename binExists toolResults =
          Except.ok r ∧
        r.status = "no_desktop_version") ∧
    (truthy (extract_desktop_version lines filename) = true → ap = none →
      ∃ r, compare_versions lines filename binExists toolResults =
          Except.ok r ∧
        r.status = "appimage_not_found") ∧
    (∀ p, truthy (extract_desktop_version lines filename) = true →
      ap = some p → binExists p = false →
      ∃ r, compare_versions lines filename binExists toolResults =
          Except.ok r ∧
        r.status = "appimage_not_found") ∧
    (∀ p, truthy (extract_desktop_version lines filename) = true →
      ap = some p → binExists p = true →
      truthy (extract_appimage_version true (pathName p) toolResults) =
        false →
      ∃ r, compare_versions lines filename binExists toolResults =
          Except.ok r ∧
        r.status = "no_appimage_version") ∧
    (∀ p, truthy (extract_desktop_version lines filename) = true →
      ap = some p → binExists p = true →
      truthy (extract_appimage_version true (pathName p) toolResults) =
        true →
      ∃ r, compare_versions lines filename binExists toolResults =
          Except.ok r ∧
        (r.status = "match" ↔
          extract_desktop_version lines filename =
            extract_appimage_version true (pathName p) toolResults) ∧
        (r.status = "match" ∨ r.status = "mismatch")) ∧
    (ap = none →
      compare_versions_with_db lines filename binExists dbVersion =
        Except.ok { status := "appimage_not_found" }) ∧
    (∀ p, ap = some p → binExists p = false →
      compare_versions_with_db lines filename binExists dbVersion =
        Except.ok { status := "appimage_not_found" }) ∧
    (∀ p, ap = some p → binExists p = true →
      (((extract_desktop_version lines filename).isNone = true ∨
          (dbRecordVersion dbVersion).isNone = true) →
        ∃ r, compare_versions_with_db lines filename binExists dbVersion =
            Except.ok r ∧
          r.status = "no_version") ∧
      (∀ a b, extract_desktop_version lines filename = some a →
        dbRecordVersion dbVersion = some b →
        ∃ r, compare_versions_with_db lines filename binExists dbVersion =
            Except.ok r ∧
          (r.status = "match" ↔ a = b) ∧
          (r.status = "match" ∨ r.status = "mismatch"))) := by
  refine ⟨?_, ?_, ?_, ?_, ?_, ?_, ?_, ?_, ?_⟩
  · -- exhaustiveness of the five statuses
    by_cases hdv : truthy (extract_desktop_version lines filename) = true
    · match ap, hap with
      | none, hap =>
        exact ⟨_, compare_versions_eq_not_found_none hap hdv, by simp⟩
      | some p, hap =>
        by_cases hbe : binExists p = true
        · by_cases hav : truthy
              (extract_appimage_version true (pathName p) toolResults) = true
          · refine ⟨_, compare_versions_eq_compared hap hdv hbe hav, ?_⟩
            by_cases heq : (extract_desktop_version lines filename ==
                extract_appimage_version true (pathName p) toolResults) = true
            · simp [heq]
            · simp [heq]
          · have hav2 : truthy (extract_appimage_version true (pathName p)
                toolResults) = false := by simpa using hav
            exact ⟨_, compare_versions_eq_no_binary_version hap hdv hbe hav2,
              by simp⟩
        · have hbe2 : binExists p = false := by simpa using hbe
          exact ⟨_, compare_versions_eq_not_found_gone hap hdv hbe2, by simp⟩
    · have hdv2 : truthy (extract_desktop_version lines filename) = false := by
        simpa using hdv
      exact ⟨_, compare_versions_eq_no_desktop hap hdv2, by simp⟩
  · intro h
    exact ⟨_, compare_versions_eq_no_desktop hap h, rfl⟩
  · intro h hnone
    subst hnone
    exact ⟨_, compare_versions_eq_not_found_none hap h, rfl⟩
  · intro p h hp hbe
    subst hp
    exact ⟨_, compare_versions_eq_not_found_gone hap h hbe, rfl⟩
  · intro p h hp hbe hav
    subst hp
    exact ⟨_, compare_versions_eq_no_binary_version hap h hbe hav, rfl⟩
  · intro p h hp hbe hav
    subst hp
    refine ⟨_, compare_versions_eq_compared hap h hbe hav, ?_, ?_⟩
    · by_cases hEq : extract_desktop_version lines filename =
          extract_appimage_version true (pathName p) toolResults
      · rw [beq_iff_eq.mpr hEq]
        exact iff_of_true rfl hEq
      · rw [beq_eq_false_iff_ne.mpr hEq]
        show ("mismatch" = "match") ↔ _
        exact iff_of_false (by decide) hEq
    · by_cases hEq : extract_desktop_version lines filename =
          extract_appimage_version true (pathName p) toolResults
      · rw [beq_iff_eq.mpr hEq]
        left
        rfl
      · rw [beq_eq_false_iff_ne.mpr hEq]
        right
        rfl
  · intro hnone
    subst hnone
    unfold compare_versions_with_db
    rw [hap]
  · intro p hp hbe
    subst hp
    unfold compare_versions_with_db
    rw [hap]
    dsimp only
    rw [if_pos (by rw [hbe]; rfl)]
  · intro p hp hbe
    subst hp
    constructor
    · intro hdisj
      unfold compare_versions_with_db
      rw [hap]
      dsimp only
      rw [if_neg (by rw [hbe]; simp)]
      by_cases hboth : ((extract_desktop_version lines filename).isNone &&
          (dbRecordVersion dbVersion).isNone) = true
      · rw [if_pos hboth]
        exact ⟨_, rfl, rfl⟩
      · rw [if_neg hboth]
        have hor : ((extract_desktop_version lines filename).isNone ||
            (dbRecordVersion dbVersion).isNone) = true := by
          rcases hdisj with h1 | h1 <;> rw [h1] <;> simp
        rw [if_pos hor]
        exact ⟨_, rfl, rfl⟩
    · intro a b ha hb
      unfold compare_versions_with_db
      rw [hap]
      dsimp only
      rw [if_neg (by rw [hbe]; simp)]
      rw [if_neg (by rw [ha, hb]; simp), if_neg (by rw [ha, hb]; simp)]
      refine ⟨_, rfl, ?_, ?_⟩
      · rw [ha, hb]
        by_cases heq : (a = b)
        · subst heq
          rw [show ((some a : Option Line) == some a) = true from by simp]
          exact iff_of_true rfl rfl
        · rw [show ((some a : Option Line) == some b) = false from by
            simp [heq]]
          show ("mismatch" = "match") ↔ _
          exact iff_of_false (by decide) heq
      · rw [ha, hb]
        by_cases heq : (a = b)
        · subst heq
          rw [show ((some a : Option Line) == some a) = true from by simp]
          left
          rfl
        · rw [show ((some a : Option Line) == some b) = false from by
            simp [heq]]
          right
          rfl

/-- Witness for C8 at the specification's scenario 5: desktop version
`2.3.1` against binary file name `MyApp-2.3.1-x86_64.AppImage` — the
status is `match` exactly because the extracted versions coincide. -/
theorem C8_witness :
    ∃ r, compare_versions
        [ofStr "X-AppImage-Version=2.3.1\n",
         ofStr "Exec=/a/MyApp-2.3.1-x86_64.AppImage\n"]
        (ofStr "app.desktop") (fun _ => true) [] = Except.ok r ∧
      (r.status = "match" ↔
        extract_desktop_version
            [ofStr "X-AppImage-Version=2.3.1\n",
             ofStr "Exec=/a/MyApp-2.3.1-x86_64.AppImage\n"]
            (ofStr "app.desktop") =
          extract_appimage_version true
            (pathName (ofStr "/a/MyApp-2.3.1-x86_64.AppImage")) []) ∧
      (r.status = "match" ∨ r.status = "mismatch") :=
  (C8_compare_statuses
    [ofStr "X-AppImage-Version=2.3.1\n",
     ofStr "Exec=/a/MyApp-2.3.1-x86_64.AppImage\n"]
    (ofStr "app.desktop") (fun _ => true) [] none
    (some (ofStr "/a/MyApp-2.3.1-x86_64.AppImage")) rfl).2.2.2.2.2.1
    (ofStr "/a/MyApp-2.3.1-x86_64.AppImage") (by decide) rfl rfl (by decide)

end AppimageFixer
